import Mathlib

/-
Verification development for the no-done-callback lint rule
(src/rules/no-done-callback.ts).  The rule and its suggestion fix are
shallowly embedded over a token-and-node model of the host parser:
tokens carry their text and half-open character ranges, nodes carry the
fields the rule consults.  Helpers that live in the repository utilities
(getNodeName, isFunction, parseJestFnCall) are modelled from the spec,
as marked on their doc comments.
-/

set_option maxRecDepth 4000

/-- A lexical token of the analyzed source file: its text and its
half-open character range, as supplied by the host token stream. -/
structure Token where
  value : String
  range : Nat × Nat
  deriving DecidableEq, Repr

/-- Model of the host SourceCode method getFirstToken: the first token
lying inside the given half-open range (the token list is in source
order). -/
def getFirstToken (src : List Token) (r : Nat × Nat) : Option Token :=
  src.find? (fun t => decide (r.1 ≤ t.range.1) && decide (t.range.2 ≤ r.2))

/-- Model of the host SourceCode method getLastToken: the last token
lying inside the given half-open range. -/
def getLastToken (src : List Token) (r : Nat × Nat) : Option Token :=
  (src.filter (fun t => decide (r.1 ≤ t.range.1) && decide (t.range.2 ≤ r.2))).getLast?

/-- Model of the host SourceCode method getTokenBefore: the last token
ending at or before the start of the given range. -/
def getTokenBefore (src : List Token) (r : Nat × Nat) : Option Token :=
  (src.filter (fun t => decide (t.range.2 ≤ r.1))).getLast?

/-- Model of the host SourceCode method getTokenAfter: the first token
starting at or after the end of the given range. -/
def getTokenAfter (src : List Token) (r : Nat × Nat) : Option Token :=
  src.find? (fun t => decide (r.2 ≤ t.range.1))

/-- Parameter shapes the rule consults: a plain identifier (with name
and range) or any other binding pattern such as destructuring (only its
range is consulted). -/
inductive Param
  | ident (name : String) (range : Nat × Nat)
  | pattern (range : Nat × Nat)
  deriving DecidableEq, Repr

/-- Source range of a parameter node. -/
def Param.range : Param → Nat × Nat
  | .ident _ r => r
  | .pattern r => r

/-- Function body shapes the rule consults: a block statement or a bare
expression body, each with its source range. -/
inductive FnBody
  | block (range : Nat × Nat)
  | expr (range : Nat × Nat)
  deriving DecidableEq, Repr

/-- Source range of a function body. -/
def FnBody.range : FnBody → Nat × Nat
  | .block r => r
  | .expr r => r

/-- The fields of a function-literal node consulted by the rule. -/
structure FunctionNode where
  params : List Param
  body : FnBody
  async : Bool
  deriving DecidableEq, Repr

/-- A call argument: a function literal or any other expression. -/
inductive CallArg
  | fn (node : FunctionNode)
  | other (range : Nat × Nat)
  deriving DecidableEq, Repr

/-- Modelled from the spec: the repository utility isFunction (not under
src/) is the predicate identifying function-literal nodes (arrow or
ordinary function expressions). -/
def isFunction : CallArg → Bool
  | .fn _ => true
  | .other _ => false

/-- Callee expression shapes consulted for name resolution and for the
tagged-template test. -/
inductive CalleeExpr
  | ident (name : String)
  | member (obj : CalleeExpr) (prop : CalleeExpr)
  | taggedTemplate (tag : CalleeExpr)
  | call (callee : CalleeExpr)
  | otherExpr
  deriving DecidableEq, Repr

/-- Whether the callee node is a tagged template expression. -/
def CalleeExpr.isTaggedTemplate : CalleeExpr → Bool
  | .taggedTemplate _ => true
  | _ => false

/-- Modelled from the spec: the repository utility getNodeName (not
under src/) resolves a callee expression to its dotted member path,
returning none for unresolvable shapes; tagged templates and calls
resolve through their tag and callee respectively. -/
def getNodeName : CalleeExpr → Option String
  | .ident n => some n
  | .member o p =>
    match getNodeName o, getNodeName p with
    | some a, some b => some (a ++ "." ++ b)
    | _, _ => none
  | .taggedTemplate t => getNodeName t
  | .call c => getNodeName c
  | .otherExpr => none

/-- The fields of a call expression consulted by the rule. -/
structure CallExpression where
  callee : CalleeExpr
  arguments : List CallArg
  deriving DecidableEq, Repr

/-- Modelled from the spec: the external classifier parseJestFnCall is
represented by its result for the visited call: hook, test, or some
other kind of jest function. -/
inductive JestFnType
  | hook
  | test
  | otherKind
  deriving DecidableEq, Repr

/-- Embedding of findCallbackArg (no-done-callback.ts lines 4-24); the
classifier result that parseJestFnCall would return is passed in
directly. -/
def findCallbackArg (node : CallExpression) (isJestEach : Bool)
    (jestFnCall : Option JestFnType) : Option CallArg :=
  if isJestEach then
    node.arguments.get? 1
  else
    match jestFnCall with
    | some .hook => if 1 ≤ node.arguments.length then node.arguments.get? 0 else none
    | some .test => if 2 ≤ node.arguments.length then node.arguments.get? 1 else none
    | _ => none

/-- A text edit as produced by the host fixer: the half-open range is
replaced by the text (an empty range is a pure insertion, an empty text
a pure removal). -/
structure RuleFix where
  range : Nat × Nat
  text : String
  deriving DecidableEq, Repr

/-- Model of the host fixer method replaceText on a node range. -/
def Fixer.replaceText (r : Nat × Nat) (text : String) : RuleFix := ⟨r, text⟩

/-- Model of the host fixer method removeRange. -/
def Fixer.removeRange (r : Nat × Nat) : RuleFix := ⟨r, ""⟩

/-- Model of the host fixer method insertTextAfter on a token range. -/
def Fixer.insertTextAfter (r : Nat × Nat) (text : String) : RuleFix := ⟨(r.2, r.2), text⟩

/-- Model of the host fixer method insertTextBefore on a token range. -/
def Fixer.insertTextBefore (r : Nat × Nat) (text : String) : RuleFix := ⟨(r.1, r.1), text⟩

/-- The message of the error thrown when a required anchor token is
missing (lines 126-128). -/
def fixErrorMessage (filename : String) : String :=
  "Unexpected null when attempting to fix " ++ filename ++
    " - please file a github issue at https://github.com/jest-community/eslint-plugin-jest"

/-- Embedding of the lookup of the token after the last parameter,
including the trailing-comma skip (lines 112-117). -/
def tokenAfterLastParam (src : List Token) (params : List Param) : Option Token :=
  match params.getLast? with
  | none => none
  | some lastParam =>
    match getTokenAfter src lastParam.range with
    | some t => if t.value = "," then getTokenAfter src t.range else some t
    | none => none

/-- Embedding of the suggestion fix callback (lines 100-163).  The rule
only invokes it with a nonempty parameter list; an empty list is mapped
to the same missing-anchor error path, since every anchor lookup on the
parameters is then impossible.  Thrown errors are modelled by the error
branch of Except, which carries no edits. -/
def fixFn (src : List Token) (filename : String) (callback : FunctionNode)
    (argName : String) : Except String (List RuleFix) :=
  match callback.params with
  | [] => Except.error (fixErrorMessage filename)
  | firstParam :: restParams =>
    match getFirstToken src callback.body.range,
          getLastToken src callback.body.range,
          getTokenBefore src firstParam.range,
          tokenAfterLastParam src (firstParam :: restParams) with
    | some firstBodyToken, some lastBodyToken,
      some tokenBeforeFirstParam, some tokenAfterLast =>
      let argumentFix :=
        if tokenBeforeFirstParam.value = "(" && tokenAfterLast.value = ")" then
          Fixer.removeRange (tokenBeforeFirstParam.range.2, tokenAfterLast.range.1)
        else
          Fixer.replaceText firstParam.range "()"
      let newCallback := argName
      let beforeReplacement := "new Promise(" ++ newCallback ++ " => "
      let afterReplacement := ")"
      match callback.body with
      | .block _ =>
        Except.ok [argumentFix,
          Fixer.insertTextAfter firstBodyToken.range
            ("return " ++ beforeReplacement ++ "\x7b"),
          Fixer.insertTextAfter lastBodyToken.range (afterReplacement ++ "\x7d")]
      | .expr _ =>
        Except.ok [argumentFix,
          Fixer.insertTextBefore firstBodyToken.range beforeReplacement,
          Fixer.insertTextAfter lastBodyToken.range afterReplacement]
    | _, _, _, _ => Except.error (fixErrorMessage filename)

/-- Model of the JS string method endsWith, by character-list suffix
comparison (so that it evaluates by kernel reduction). -/
def strEndsWith (s post : String) : Bool :=
  post.data.isSuffixOf s.data

/-- Embedding of the isJestEach test (line 50): the resolved callee name
ends in the suffix .each, defaulting to false when unresolvable. -/
def isJestEachCallee (node : CallExpression) : Bool :=
  ((getNodeName node.callee).map (fun n => strEndsWith n ".each")).getD false

deriving instance DecidableEq for Except

/-- A suggested rewrite attached to a diagnostic: its message id, the
interpolation data (the callback parameter name), and the computed edit
plan (or the thrown error). -/
structure Suggestion where
  messageId : String
  data : Option String
  fix : Except String (List RuleFix)
  deriving DecidableEq, Repr

/-- A reported diagnostic: the anchor node (always a parameter node of
the callback, never the enclosing call), the message id, and the
suggestion list. -/
structure Diagnostic where
  node : Param
  messageId : String
  suggest : List Suggestion
  deriving DecidableEq, Repr

/-- Embedding of the CallExpression visitor (lines 48-167): at most one
diagnostic is reported per visited call, hence the Option result. -/
def checkCallExpression (src : List Token) (filename : String)
    (jestFnCall : Option JestFnType) (node : CallExpression) : Option Diagnostic :=
  if isJestEachCallee node && !node.callee.isTaggedTemplate then
    none
  else
    match findCallbackArg node (isJestEachCallee node) jestFnCall with
    | some (CallArg.fn callback) =>
      if callback.params.length ≠ 1 + (if isJestEachCallee node then 1 else 0) then
        none
      else
        match callback.params.get? (if isJestEachCallee node then 1 else 0) with
        | none => none
        | some argument =>
          match argument with
          | Param.pattern r =>
            some { node := Param.pattern r, messageId := "noDoneCallback", suggest := [] }
          | Param.ident nm r =>
            if callback.async then
              some { node := Param.ident nm r,
                     messageId := "useAwaitInsteadOfCallback", suggest := [] }
            else
              some { node := Param.ident nm r, messageId := "noDoneCallback",
                     suggest := [{ messageId := "suggestWrappingInPromise",
                                   data := some nm,
                                   fix := fixFn src filename callback nm }] }
    | _ => none

/-- Callback of the parameterized-test scenario: the function literal in
it.each`T`(x, function (n, done) ... done(); ...) with the parameter n
at characters 26-27 and done at 29-33. -/
def eachCb : FunctionNode :=
  { params := [Param.ident "n" (26, 27), Param.ident "done" (29, 33)],
    body := FnBody.block (35, 46), async := false }

/-- The parameterized-test call of the scenario, in tagged-template
form: the callee is a tagged template whose tag resolves to it.each. -/
def eachCall : CallExpression :=
  { callee := CalleeExpr.taggedTemplate
      (CalleeExpr.member (CalleeExpr.ident "it") (CalleeExpr.ident "each")),
    arguments := [CallArg.other (11, 14), CallArg.fn eachCb] }

/-- Token stream of the parameterized-test scenario source text. -/
def eachTokens : List Token :=
  [⟨"it", (0, 2)⟩, ⟨".", (2, 3)⟩, ⟨"each", (3, 7)⟩, ⟨"`T`", (7, 10)⟩,
   ⟨"(", (10, 11)⟩, ⟨"x", (11, 14)⟩, ⟨",", (14, 15)⟩, ⟨"function", (16, 24)⟩,
   ⟨"(", (25, 26)⟩, ⟨"n", (26, 27)⟩, ⟨",", (27, 28)⟩, ⟨"done", (29, 33)⟩,
   ⟨")", (33, 34)⟩, ⟨"\x7b", (35, 36)⟩, ⟨"done", (37, 41)⟩, ⟨"(", (41, 42)⟩,
   ⟨")", (42, 43)⟩, ⟨";", (43, 44)⟩, ⟨"\x7d", (45, 46)⟩, ⟨")", (46, 47)⟩]

/-- Callback of the hook scenario hook(function (done) ... done(); ...)
with the single parameter done at characters 15-19. -/
def hookCb : FunctionNode :=
  { params := [Param.ident "done" (15, 19)],
    body := FnBody.block (21, 32), async := false }

/-- The hook call of the scenario. -/
def hookCall : CallExpression :=
  { callee := CalleeExpr.ident "hook", arguments := [CallArg.fn hookCb] }

/-- Token stream of the hook scenario source text. -/
def hookTokens : List Token :=
  [⟨"hook", (0, 4)⟩, ⟨"(", (4, 5)⟩, ⟨"function", (5, 13)⟩, ⟨"(", (14, 15)⟩,
   ⟨"done", (15, 19)⟩, ⟨")", (19, 20)⟩, ⟨"\x7b", (21, 22)⟩, ⟨"done", (23, 27)⟩,
   ⟨"(", (27, 28)⟩, ⟨")", (28, 29)⟩, ⟨";", (29, 30)⟩, ⟨"\x7d", (31, 32)⟩,
   ⟨")", (32, 33)⟩]

/-- Callback of the expression-bodied scenario hook(done => foo(done)),
whose single parameter done at characters 5-9 is not wrapped in its own
parentheses and whose body is the expression at 13-22. -/
def arrowCb : FunctionNode :=
  { params := [Param.ident "done" (5, 9)],
    body := FnBody.expr (13, 22), async := false }

/-- The hook call of the expression-bodied scenario. -/
def arrowCall : CallExpression :=
  { callee := CalleeExpr.ident "hook", arguments := [CallArg.fn arrowCb] }

/-- Token stream of the expression-bodied scenario source text. -/
def arrowTokens : List Token :=
  [⟨"hook", (0, 4)⟩, ⟨"(", (4, 5)⟩, ⟨"done", (5, 9)⟩, ⟨"=>", (10, 12)⟩,
   ⟨"foo", (13, 16)⟩, ⟨"(", (16, 17)⟩, ⟨"done", (17, 21)⟩, ⟨")", (21, 22)⟩,
   ⟨")", (22, 23)⟩]

/-- Callback whose callback-slot parameter is a destructuring pattern;
it is also asynchronous, to exercise the precedence of the two
no-rewrite diagnostic kinds. -/
def patternCb : FunctionNode :=
  { params := [Param.pattern (20, 26)], body := FnBody.block (28, 30), async := true }

/-- Hook call with the destructuring-pattern callback. -/
def patternCall : CallExpression :=
  { callee := CalleeExpr.ident "hook", arguments := [CallArg.fn patternCb] }

/-- Asynchronous callback whose callback-slot parameter is a plain
identifier. -/
def asyncCb : FunctionNode :=
  { params := [Param.ident "done" (12, 16)], body := FnBody.block (18, 20), async := true }

/-- Hook call with the asynchronous callback. -/
def asyncCall : CallExpression :=
  { callee := CalleeExpr.ident "hook", arguments := [CallArg.fn asyncCb] }

/-- Parameterized-test call in the direct-call convention: the callee
is an ordinary call it.each(table), not a tagged template, while the
second argument is a perfectly matching synchronous callback. -/
def directEachCall : CallExpression :=
  { callee := CalleeExpr.call
      (CalleeExpr.member (CalleeExpr.ident "it") (CalleeExpr.ident "each")),
    arguments := [CallArg.other (15, 18), CallArg.fn eachCb] }

/-- The hook callback after the suggested rewrite has been applied: the
parameter list is empty and the body returns the constructed promise. -/
def rewrittenHookCb : FunctionNode :=
  { params := [], body := FnBody.block (21, 60), async := false }

/-- The hook call site as it reads after the suggested rewrite. -/
def rewrittenHookCall : CallExpression :=
  { callee := CalleeExpr.ident "hook", arguments := [CallArg.fn rewrittenHookCb] }

/-- Callback of the trailing-comma scenario
hook(function (done,) ... done(); ...): the parameter list of the
single parameter done at characters 15-19 ends in a comma. -/
def trailingCommaCb : FunctionNode :=
  { params := [Param.ident "done" (15, 19)],
    body := FnBody.block (22, 33), async := false }

/-- Token stream of the trailing-comma scenario source text. -/
def trailingCommaTokens : List Token :=
  [⟨"hook", (0, 4)⟩, ⟨"(", (4, 5)⟩, ⟨"function", (5, 13)⟩, ⟨"(", (14, 15)⟩,
   ⟨"done", (15, 19)⟩, ⟨",", (19, 20)⟩, ⟨")", (20, 21)⟩, ⟨"\x7b", (22, 23)⟩,
   ⟨"done", (24, 28)⟩, ⟨"(", (28, 29)⟩, ⟨")", (29, 30)⟩, ⟨";", (30, 31)⟩,
   ⟨"\x7d", (32, 33)⟩, ⟨")", (33, 34)⟩]

/-- A small callback used with an empty token stream, so that no anchor
token can be located. -/
def tokenlessCb : FunctionNode :=
  { params := [Param.ident "done" (0, 1)], body := FnBody.block (2, 3), async := false }

/-- A token returned by getTokenBefore ends at or before the start of
the queried range. -/
theorem getTokenBefore_end_le (src : List Token) (r : Nat × Nat) (t : Token)
    (h : getTokenBefore src r = some t) : t.range.2 ≤ r.1 := by
  unfold getTokenBefore at h
  have hm := List.mem_of_mem_getLast? h
  exact of_decide_eq_true (List.mem_filter.mp hm).2

/-- A token returned by getTokenAfter starts at or after the end of the
queried range. -/
theorem getTokenAfter_start_ge (src : List Token) (r : Nat × Nat) (t : Token)
    (h : getTokenAfter src r = some t) : r.2 ≤ t.range.1 := by
  unfold getTokenAfter at h
  have hp := List.find?_some h
  simp only [decide_eq_true_eq] at hp
  exact hp

/-- The token found after the last parameter (after the trailing-comma
skip) starts at or after the end of the last parameter, provided every
token range of the stream is well formed. -/
theorem tokenAfterLastParam_start_ge (src : List Token) (params : List Param)
    (lp : Param) (ta : Token)
    (hwf : ∀ t ∈ src, t.range.1 ≤ t.range.2)
    (hlast : params.getLast? = some lp)
    (h : tokenAfterLastParam src params = some ta) : lp.range.2 ≤ ta.range.1 := by
  unfold tokenAfterLastParam at h
  rw [hlast] at h
  dsimp only at h
  cases hg : getTokenAfter src lp.range with
  | none => rw [hg] at h; dsimp only at h; cases h
  | some c =>
    rw [hg] at h
    dsimp only at h
    by_cases hc : c.value = ","
    · rw [if_pos hc] at h
      have h1 := getTokenAfter_start_ge src lp.range c hg
      have h2 := getTokenAfter_start_ge src c.range ta h
      have h3 : c.range.1 ≤ c.range.2 := hwf c (List.mem_of_find?_eq_some hg)
      omega
    · rw [if_neg hc] at h
      cases Option.some.inj h
      exact getTokenAfter_start_ge src lp.range _ hg

/-- Computation of fixFn on a block-bodied callback once the four anchor
tokens are located: the parameter edit followed by the two body-wrapping
insertions. -/
theorem fixFn_block (src : List Token) (f nm : String) (fp : Param)
    (rest : List Param) (r : Nat × Nat) (asy : Bool) (fb lb tb ta : Token)
    (hfb : getFirstToken src r = some fb)
    (hlb : getLastToken src r = some lb)
    (htb : getTokenBefore src fp.range = some tb)
    (hta : tokenAfterLastParam src (fp :: rest) = some ta) :
    fixFn src f ⟨fp :: rest, FnBody.block r, asy⟩ nm =
      Except.ok
        [(if tb.value = "(" && ta.value = ")" then
            Fixer.removeRange (tb.range.2, ta.range.1)
          else
            Fixer.replaceText fp.range "()"),
         Fixer.insertTextAfter fb.range ("return new Promise(" ++ nm ++ " => \x7b"),
         Fixer.insertTextAfter lb.range ")\x7d"] := by
  unfold fixFn
  dsimp only [FnBody.range]
  rw [hfb, hlb, htb, hta]
  dsimp only
  simp only [String.append_assoc]
  rfl

/-- Computation of fixFn on an expression-bodied callback once the four
anchor tokens are located: the parameter edit followed by the two
promise-wrapping insertions, without return keyword or braces. -/
theorem fixFn_expr (src : List Token) (f nm : String) (fp : Param)
    (rest : List Param) (r : Nat × Nat) (asy : Bool) (fb lb tb ta : Token)
    (hfb : getFirstToken src r = some fb)
    (hlb : getLastToken src r = some lb)
    (htb : getTokenBefore src fp.range = some tb)
    (hta : tokenAfterLastParam src (fp :: rest) = some ta) :
    fixFn src f ⟨fp :: rest, FnBody.expr r, asy⟩ nm =
      Except.ok
        [(if tb.value = "(" && ta.value = ")" then
            Fixer.removeRange (tb.range.2, ta.range.1)
          else
            Fixer.replaceText fp.range "()"),
         Fixer.insertTextBefore fb.range ("new Promise(" ++ nm ++ " => "),
         Fixer.insertTextAfter lb.range ")"] := by
  unfold fixFn
  dsimp only [FnBody.range]
  rw [hfb, hlb, htb, hta]

/-- Computation of the visitor on a qualifying synchronous callback with
an identifier callback-slot parameter: the single diagnostic, anchored
at that parameter, with its single suggestion. -/
theorem checkCallExpression_suggests (src : List Token) (f : String)
    (parse : Option JestFnType) (node : CallExpression) (cb : FunctionNode)
    (nm : String) (r : Nat × Nat)
    (hguard : (isJestEachCallee node && !node.callee.isTaggedTemplate) = false)
    (harg : findCallbackArg node (isJestEachCallee node) parse = some (CallArg.fn cb))
    (hlen : cb.params.length = 1 + (if isJestEachCallee node then 1 else 0))
    (hget : cb.params.get? (if isJestEachCallee node then 1 else 0) =
      some (Param.ident nm r))
    (hasync : cb.async = false) :
    checkCallExpression src f parse node =
      some { node := Param.ident nm r, messageId := "noDoneCallback",
             suggest := [{ messageId := "suggestWrappingInPromise",
                           data := some nm,
                           fix := fixFn src f cb nm }] } := by
  unfold checkCallExpression
  rw [hguard]
  simp only [Bool.false_eq_true, if_false]
  rw [harg]
  dsimp only
  rw [if_neg (by simp [hlen]), hget]
  dsimp only
  rw [hasync]
  simp

/-- C1, counterexample.  The claim says the suggested rewrite for the
tagged-template parameterized-test call with callback (n, done) removes
only the done parameter, leaving n in place.  In fact the single
parameter edit of the plan is the removal of characters 26-33, the
whole span between the parameter-list parentheses, and that span
contains the entire range 26-27 of the leading case parameter n, so n
is erased as well. -/
theorem C1_counterexample :
    checkCallExpression eachTokens "file.ts" none eachCall =
      some { node := Param.ident "done" (29, 33), messageId := "noDoneCallback",
             suggest := [{ messageId := "suggestWrappingInPromise", data := some "done",
                           fix := Except.ok
                             [⟨(26, 33), ""⟩,
                              ⟨(36, 36), "return new Promise(done => \x7b"⟩,
                              ⟨(46, 46), ")\x7d"⟩] }] }
    ∧ eachCb.params.get? 0 = some (Param.ident "n" (26, 27))
    ∧ 26 ≤ 26 ∧ 27 ≤ 33 := by decide

/-- C1 (amended).  For a tagged-template parameterized-test call whose
synchronous callback has a leading case parameter and a plain-identifier
completion parameter, with the parameter list enclosed between a ( token
and a ) token, the diagnostic carries one suggestion whose parameter
edit removes the entire span between those two tokens; that span covers
the leading case parameter as well as the completion parameter, so both
are removed, not only the completion parameter. -/
theorem C1_theorem
    (src : List Token) (f : String) (parse : Option JestFnType)
    (node : CallExpression) (p : Param) (nm : String) (rdone : Nat × Nat)
    (body : FnBody) (fb lb tb ta : Token)
    (hwf : ∀ t ∈ src, t.range.1 ≤ t.range.2)
    (heach : isJestEachCallee node = true)
    (htagged : node.callee.isTaggedTemplate = true)
    (harg : node.arguments.get? 1 =
      some (CallArg.fn ⟨[p, Param.ident nm rdone], body, false⟩))
    (hfb : getFirstToken src body.range = some fb)
    (hlb : getLastToken src body.range = some lb)
    (htb : getTokenBefore src p.range = some tb)
    (hta : tokenAfterLastParam src [p, Param.ident nm rdone] = some ta)
    (hlp : tb.value = "(") (hrp : ta.value = ")")
    (hord : p.range.2 ≤ rdone.2) :
    ∃ b1 b2 : RuleFix,
      checkCallExpression src f parse node =
        some { node := Param.ident nm rdone, messageId := "noDoneCallback",
               suggest := [{ messageId := "suggestWrappingInPromise",
                             data := some nm,
                             fix := Except.ok
                               [Fixer.removeRange (tb.range.2, ta.range.1), b1, b2] }] } ∧
      tb.range.2 ≤ p.range.1 ∧ p.range.2 ≤ ta.range.1 ∧ rdone.2 ≤ ta.range.1 := by
  have h1 := getTokenBefore_end_le src p.range tb htb
  have h2 : rdone.2 ≤ ta.range.1 := by
    have h := tokenAfterLastParam_start_ge src [p, Param.ident nm rdone]
      (Param.ident nm rdone) ta hwf rfl hta
    simpa [Param.range] using h
  have hcheck := checkCallExpression_suggests src f parse node
    ⟨[p, Param.ident nm rdone], body, false⟩ nm rdone
    (by simp [heach, htagged])
    (by simpa [findCallbackArg, heach] using harg)
    (by simp [heach])
    (by simp [heach])
    rfl
  cases body with
  | block r =>
    refine ⟨Fixer.insertTextAfter fb.range ("return new Promise(" ++ nm ++ " => \x7b"),
            Fixer.insertTextAfter lb.range ")\x7d", ?_, h1, le_trans hord h2, h2⟩
    rw [hcheck]
    rw [fixFn_block src f nm p [Param.ident nm rdone] r false fb lb tb ta
      (by simpa using hfb) (by simpa using hlb) htb hta]
    rw [if_pos (by simp [hlp, hrp])]
  | expr r =>
    refine ⟨Fixer.insertTextBefore fb.range ("new Promise(" ++ nm ++ " => "),
            Fixer.insertTextAfter lb.range ")", ?_, h1, le_trans hord h2, h2⟩
    rw [hcheck]
    rw [fixFn_expr src f nm p [Param.ident nm rdone] r false fb lb tb ta
      (by simpa using hfb) (by simpa using hlb) htb hta]
    rw [if_pos (by simp [hlp, hrp])]

/-- C1 (amended), witness: the amended statement evaluated on the
tagged-template parameterized-test scenario. -/
theorem C1_witness :
    ∃ b1 b2 : RuleFix,
      checkCallExpression eachTokens "file.ts" none eachCall =
        some { node := Param.ident "done" (29, 33), messageId := "noDoneCallback",
               suggest := [{ messageId := "suggestWrappingInPromise",
                             data := some "done",
                             fix := Except.ok
                               [Fixer.removeRange (26, 33), b1, b2] }] } ∧
      26 ≤ 26 ∧ 27 ≤ 33 ∧ 33 ≤ 33 :=
  C1_theorem eachTokens "file.ts" none eachCall (Param.ident "n" (26, 27)) "done"
    (29, 33) (FnBody.block (35, 46)) ⟨"\x7b", (35, 36)⟩ ⟨"\x7d", (45, 46)⟩
    ⟨"(", (25, 26)⟩ ⟨")", (33, 34)⟩
    (by decide) (by decide) (by decide) (by decide) (by decide) (by decide)
    (by decide) (by decide) rfl rfl (by decide)

/-- C2, counterexample.  The claim says the block-body rewrite inserts
the text close-brace-close-paren immediately after the last body token.
On the hook scenario the edit inserted at position 32, after the final
close brace of the body, carries the text close-paren-close-brace, and
no edit of the plan carries the claimed text. -/
theorem C2_counterexample :
    checkCallExpression hookTokens "file.ts" (some JestFnType.hook) hookCall =
      some { node := Param.ident "done" (15, 19), messageId := "noDoneCallback",
             suggest := [{ messageId := "suggestWrappingInPromise", data := some "done",
                           fix := Except.ok
                             [⟨(15, 19), ""⟩,
                              ⟨(22, 22), "return new Promise(done => \x7b"⟩,
                              ⟨(32, 32), ")\x7d"⟩] }] }
    ∧ (⟨(32, 32), "\x7d)"⟩ : RuleFix) ∉
        ([⟨(15, 19), ""⟩, ⟨(22, 22), "return new Promise(done => \x7b"⟩,
          ⟨(32, 32), ")\x7d"⟩] : List RuleFix) := by decide

/-- C2 (amended).  For every rewrite the transformer emits: on a block
body it inserts the text return-new-Promise-open after the opening brace
of the body and the two closing characters, close paren then close
brace, after the last body token; on an expression body it inserts the
promise prefix before the body expression and a close paren after it,
with no return keyword or braces. -/
theorem C2_theorem (src : List Token) (f nm : String) (fp : Param)
    (rest : List Param) (asy : Bool) (body : FnBody) (fb lb tb ta : Token)
    (hfb : getFirstToken src body.range = some fb)
    (hlb : getLastToken src body.range = some lb)
    (htb : getTokenBefore src fp.range = some tb)
    (hta : tokenAfterLastParam src (fp :: rest) = some ta) :
    (∀ r, body = FnBody.block r →
      fixFn src f ⟨fp :: rest, body, asy⟩ nm =
        Except.ok
          [(if tb.value = "(" && ta.value = ")" then
              Fixer.removeRange (tb.range.2, ta.range.1)
            else Fixer.replaceText fp.range "()"),
           ⟨(fb.range.2, fb.range.2), "return new Promise(" ++ nm ++ " => \x7b"⟩,
           ⟨(lb.range.2, lb.range.2), ")\x7d"⟩])
    ∧ (∀ r, body = FnBody.expr r →
      fixFn src f ⟨fp :: rest, body, asy⟩ nm =
        Except.ok
          [(if tb.value = "(" && ta.value = ")" then
              Fixer.removeRange (tb.range.2, ta.range.1)
            else Fixer.replaceText fp.range "()"),
           ⟨(fb.range.1, fb.range.1), "new Promise(" ++ nm ++ " => "⟩,
           ⟨(lb.range.2, lb.range.2), ")"⟩]) := by
  constructor
  · rintro r rfl
    exact fixFn_block src f nm fp rest r asy fb lb tb ta
      (by simpa using hfb) (by simpa using hlb) htb hta
  · rintro r rfl
    exact fixFn_expr src f nm fp rest r asy fb lb tb ta
      (by simpa using hfb) (by simpa using hlb) htb hta

/-- C2 (amended), witness: the block conjunct evaluated on the hook
scenario and the expression conjunct on the expression-bodied
scenario. -/
theorem C2_witness :
    fixFn hookTokens "file.ts" hookCb "done" =
      Except.ok [⟨(15, 19), ""⟩, ⟨(22, 22), "return new Promise(done => \x7b"⟩,
                 ⟨(32, 32), ")\x7d"⟩]
    ∧ fixFn arrowTokens "file.ts" arrowCb "done" =
      Except.ok [⟨(5, 9), "()"⟩, ⟨(13, 13), "new Promise(done => "⟩,
                 ⟨(22, 22), ")"⟩] := by
  constructor
  · have h := (C2_theorem hookTokens "file.ts" "done" (Param.ident "done" (15, 19)) []
      false (FnBody.block (21, 32)) ⟨"\x7b", (21, 22)⟩ ⟨"\x7d", (31, 32)⟩
      ⟨"(", (14, 15)⟩ ⟨")", (19, 20)⟩ (by decide) (by decide) (by decide)
      (by decide)).1 (21, 32) rfl
    exact h.trans (by decide)
  · have h := (C2_theorem arrowTokens "file.ts" "done" (Param.ident "done" (5, 9)) []
      false (FnBody.expr (13, 22)) ⟨"foo", (13, 16)⟩ ⟨")", (21, 22)⟩
      ⟨"(", (4, 5)⟩ ⟨"=>", (10, 12)⟩ (by decide) (by decide) (by decide)
      (by decide)).2 (13, 22) rfl
    exact h.trans (by decide)

/-- C3, counterexample.  The claim says the parameter edit replaces the
callback-slot parameter with an empty parameter list, with the
paren-span-removal exception applying only when the callback slot is the
only parameter.  On the parameterized-test scenario the callback slot,
done at 29-33, is the second of two parameters, so per the claim the
plan should replace the span 29-33 with an empty pair of parens; the
actual plan contains no such edit and instead removes the span 26-33
between the parameter-list parentheses. -/
theorem C3_counterexample :
    fixFn eachTokens "file.ts" eachCb "done" =
      Except.ok [⟨(26, 33), ""⟩, ⟨(36, 36), "return new Promise(done => \x7b"⟩,
                 ⟨(46, 46), ")\x7d"⟩]
    ∧ eachCb.params.length = 2
    ∧ eachCb.params.get? 1 = some (Param.ident "done" (29, 33))
    ∧ (⟨(29, 33), "()"⟩ : RuleFix) ∉
        ([⟨(26, 33), ""⟩, ⟨(36, 36), "return new Promise(done => \x7b"⟩,
          ⟨(46, 46), ")\x7d"⟩] : List RuleFix) := by decide

/-- C3 (amended).  For every rewrite the transformer emits, the
parameter edit replaces the text span of the first parameter with an
empty pair of parens, except when the token immediately before the
first parameter is an open paren and the token immediately after the
last parameter, after skipping a trailing comma, is a close paren -
regardless of how many parameters there are - in which case the edit
removes the span between those two tokens. -/
theorem C3_theorem (src : List Token) (f nm : String) (fp : Param)
    (rest : List Param) (asy : Bool) (body : FnBody) (fb lb tb ta : Token)
    (hfb : getFirstToken src body.range = some fb)
    (hlb : getLastToken src body.range = some lb)
    (htb : getTokenBefore src fp.range = some tb)
    (hta : tokenAfterLastParam src (fp :: rest) = some ta) :
    ∃ b1 b2 : RuleFix,
      fixFn src f ⟨fp :: rest, body, asy⟩ nm =
        Except.ok
          [(if tb.value = "(" && ta.value = ")" then
              Fixer.removeRange (tb.range.2, ta.range.1)
            else Fixer.replaceText fp.range "()"), b1, b2] := by
  cases body with
  | block r =>
    exact ⟨_, _, fixFn_block src f nm fp rest r asy fb lb tb ta
      (by simpa using hfb) (by simpa using hlb) htb hta⟩
  | expr r =>
    exact ⟨_, _, fixFn_expr src f nm fp rest r asy fb lb tb ta
      (by simpa using hfb) (by simpa using hlb) htb hta⟩

/-- C3 (amended), witness: on the expression-bodied scenario the token
after the single parameter is the arrow, not a close paren, so the edit
replaces the parameter span with an empty pair of parens. -/
theorem C3_witness :
    ∃ b1 b2 : RuleFix,
      fixFn arrowTokens "file.ts" arrowCb "done" =
        Except.ok [Fixer.replaceText (5, 9) "()", b1, b2] := by
  obtain ⟨b1, b2, h⟩ := C3_theorem arrowTokens "file.ts" "done"
    (Param.ident "done" (5, 9)) [] false (FnBody.expr (13, 22))
    ⟨"foo", (13, 16)⟩ ⟨")", (21, 22)⟩ ⟨"(", (4, 5)⟩ ⟨"=>", (10, 12)⟩
    (by decide) (by decide) (by decide) (by decide)
  exact ⟨b1, b2, h⟩

/-- C4.  For every matching call whose callback is a synchronous
function literal whose callback-slot parameter is a plain identifier,
the visitor produces exactly one diagnostic, anchored at that parameter
node rather than the enclosing call, carrying exactly one suggestion
whose message data is the identifier name of the callback parameter. -/
theorem C4_theorem (src : List Token) (f : String) (parse : Option JestFnType)
    (node : CallExpression) (cb : FunctionNode) (nm : String) (r : Nat × Nat)
    (hguard : (isJestEachCallee node && !node.callee.isTaggedTemplate) = false)
    (harg : findCallbackArg node (isJestEachCallee node) parse = some (CallArg.fn cb))
    (hlen : cb.params.length = 1 + (if isJestEachCallee node then 1 else 0))
    (hget : cb.params.get? (if isJestEachCallee node then 1 else 0) =
      some (Param.ident nm r))
    (hasync : cb.async = false) :
    checkCallExpression src f parse node =
      some { node := Param.ident nm r, messageId := "noDoneCallback",
             suggest := [{ messageId := "suggestWrappingInPromise",
                           data := some nm,
                           fix := fixFn src f cb nm }] } :=
  checkCallExpression_suggests src f parse node cb nm r hguard harg hlen hget hasync

/-- C4, witness: the hook scenario. -/
theorem C4_witness :
    checkCallExpression hookTokens "file.ts" (some JestFnType.hook) hookCall =
      some { node := Param.ident "done" (15, 19), messageId := "noDoneCallback",
             suggest := [{ messageId := "suggestWrappingInPromise",
                           data := some "done",
                           fix := fixFn hookTokens "file.ts" hookCb "done" }] } :=
  C4_theorem hookTokens "file.ts" (some JestFnType.hook) hookCall hookCb "done"
    (15, 19) (by decide) (by decide) (by decide) (by decide) rfl

/-- C5.  A diagnostic is produced only when the callback argument
located by findCallbackArg for the call classification exists, is a
function literal, and has parameter count exactly one plus the
parameterized-test offset. -/
theorem C5_theorem (src : List Token) (f : String) (parse : Option JestFnType)
    (node : CallExpression) (d : Diagnostic)
    (h : checkCallExpression src f parse node = some d) :
    ∃ cb : FunctionNode,
      findCallbackArg node (isJestEachCallee node) parse = some (CallArg.fn cb) ∧
      cb.params.length = 1 + (if isJestEachCallee node then 1 else 0) := by
  unfold checkCallExpression at h
  by_cases hg : (isJestEachCallee node && !node.callee.isTaggedTemplate) = true
  · rw [if_pos hg] at h; cases h
  · rw [if_neg hg] at h
    cases hf : findCallbackArg node (isJestEachCallee node) parse with
    | none => rw [hf] at h; dsimp only at h; cases h
    | some arg =>
      rw [hf] at h
      cases arg with
      | other r2 => dsimp only at h; cases h
      | fn cb =>
        dsimp only at h
        by_cases hlen : cb.params.length = 1 + (if isJestEachCallee node then 1 else 0)
        · exact ⟨cb, rfl, hlen⟩
        · rw [if_pos hlen] at h; cases h

/-- C5, witness: the hook scenario produces a diagnostic, and indeed its
located callback argument is a function literal with one parameter. -/
theorem C5_witness :
    ∃ cb : FunctionNode,
      findCallbackArg hookCall (isJestEachCallee hookCall) (some JestFnType.hook) =
        some (CallArg.fn cb) ∧
      cb.params.length = 1 + (if isJestEachCallee hookCall then 1 else 0) :=
  C5_theorem hookTokens "file.ts" (some JestFnType.hook) hookCall
    { node := Param.ident "done" (15, 19), messageId := "noDoneCallback",
      suggest := [{ messageId := "suggestWrappingInPromise", data := some "done",
                    fix := fixFn hookTokens "file.ts" hookCb "done" }] }
    (by decide)

/-- C6.  For a matching callback the two no-rewrite diagnostic kinds are
selected in order: a non-identifier callback-slot parameter yields the
noDoneCallback diagnostic with no suggestions regardless of asynchrony,
and otherwise an asynchronous function yields the
useAwaitInsteadOfCallback diagnostic with no suggestions. -/
theorem C6_theorem (src : List Token) (f : String) (parse : Option JestFnType)
    (node : CallExpression) (cb : FunctionNode)
    (hguard : (isJestEachCallee node && !node.callee.isTaggedTemplate) = false)
    (harg : findCallbackArg node (isJestEachCallee node) parse = some (CallArg.fn cb))
    (hlen : cb.params.length = 1 + (if isJestEachCallee node then 1 else 0)) :
    (∀ r, cb.params.get? (if isJestEachCallee node then 1 else 0) =
        some (Param.pattern r) →
      checkCallExpression src f parse node =
        some { node := Param.pattern r, messageId := "noDoneCallback", suggest := [] })
    ∧ (∀ nm r, cb.params.get? (if isJestEachCallee node then 1 else 0) =
        some (Param.ident nm r) → cb.async = true →
      checkCallExpression src f parse node =
        some { node := Param.ident nm r, messageId := "useAwaitInsteadOfCallback",
               suggest := [] }) := by
  constructor
  · intro r hget
    unfold checkCallExpression
    rw [hguard]
    simp only [Bool.false_eq_true, if_false]
    rw [harg]
    dsimp only
    rw [if_neg (by simp [hlen]), hget]
  · intro nm r hget hasync
    unfold checkCallExpression
    rw [hguard]
    simp only [Bool.false_eq_true, if_false]
    rw [harg]
    dsimp only
    rw [if_neg (by simp [hlen]), hget]
    dsimp only
    rw [hasync]
    simp

/-- C6, witness: the destructuring-pattern callback (which is even
asynchronous) yields the noDoneCallback diagnostic with no suggestions,
and the asynchronous identifier callback yields the
useAwaitInsteadOfCallback diagnostic with no suggestions. -/
theorem C6_witness :
    checkCallExpression [] "file.ts" (some JestFnType.hook) patternCall =
      some { node := Param.pattern (20, 26), messageId := "noDoneCallback",
             suggest := [] }
    ∧ checkCallExpression [] "file.ts" (some JestFnType.hook) asyncCall =
      some { node := Param.ident "done" (12, 16),
             messageId := "useAwaitInsteadOfCallback", suggest := [] } :=
  ⟨(C6_theorem [] "file.ts" (some JestFnType.hook) patternCall patternCb
      (by decide) (by decide) (by decide)).1 (20, 26) (by decide),
   (C6_theorem [] "file.ts" (some JestFnType.hook) asyncCall asyncCb
      (by decide) (by decide) (by decide)).2 "done" (12, 16) (by decide) rfl⟩

/-- C7.  A call whose resolved callee name ends in the suffix .each but
whose callee is not a tagged template expression - the direct-call
convention - produces no diagnostic, regardless of its arguments. -/
theorem C7_theorem (src : List Token) (f : String) (parse : Option JestFnType)
    (node : CallExpression) (s : String)
    (hname : getNodeName node.callee = some s)
    (hsuffix : strEndsWith s ".each" = true)
    (htag : node.callee.isTaggedTemplate = false) :
    checkCallExpression src f parse node = none := by
  have heach : isJestEachCallee node = true := by
    unfold isJestEachCallee
    rw [hname]
    simpa using hsuffix
  unfold checkCallExpression
  rw [heach, htag]
  simp

/-- C7, witness: the direct-call parameterized-test scenario, whose
second argument is a perfectly matching synchronous callback, yields no
diagnostic. -/
theorem C7_witness :
    checkCallExpression [] "file.ts" (some JestFnType.test) directEachCall = none :=
  C7_theorem [] "file.ts" (some JestFnType.test) directEachCall "it.each"
    (by decide) (by decide) (by decide)

/-- C8.  If any of the four anchor tokens needed by the rewrite
computation cannot be located, the fix computation produces the thrown
error and no edits at all: the error branch of Except carries no edit
plan, partial or otherwise. -/
theorem C8_theorem (src : List Token) (f nm : String) (cb : FunctionNode)
    (h : getFirstToken src cb.body.range = none
       ∨ getLastToken src cb.body.range = none
       ∨ (cb.params.head?.bind fun p => getTokenBefore src p.range) = none
       ∨ tokenAfterLastParam src cb.params = none) :
    fixFn src f cb nm = Except.error (fixErrorMessage f) := by
  obtain ⟨params, body, asy⟩ := cb
  dsimp only at h
  cases params with
  | nil => rfl
  | cons fp rest =>
    unfold fixFn
    dsimp only
    rcases hA : getFirstToken src body.range with _ | fb <;>
      rcases hB : getLastToken src body.range with _ | lb <;>
        rcases hC : getTokenBefore src fp.range with _ | tb <;>
          rcases hD : tokenAfterLastParam src (fp :: rest) with _ | ta <;>
            simp_all

/-- C8, witness: with an empty token stream no anchor token exists, and
the fix computation returns the thrown error. -/
theorem C8_witness :
    fixFn [] "file.ts" tokenlessCb "done" =
      Except.error (fixErrorMessage "file.ts") :=
  C8_theorem [] "file.ts" "done" tokenlessCb (Or.inl (by decide))

/-- C9.  On a call site whose located callback has a parameter count of
zero - which is what the rewritten code of a suggestion exhibits, since
the rewrite empties the parameter list - the visitor produces no
diagnostic, because zero fails the exact-parameter-count guard. -/
theorem C9_theorem (src : List Token) (f : String) (parse : Option JestFnType)
    (node : CallExpression) (cb : FunctionNode)
    (harg : findCallbackArg node (isJestEachCallee node) parse = some (CallArg.fn cb))
    (hparams : cb.params = []) :
    checkCallExpression src f parse node = none := by
  unfold checkCallExpression
  by_cases hg : (isJestEachCallee node && !node.callee.isTaggedTemplate) = true
  · rw [if_pos hg]
  · rw [if_neg hg, harg]
    dsimp only
    rw [if_pos (by simp [hparams]; split <;> omega)]

/-- C9, witness: the hook call site as it reads after applying the
suggested rewrite yields no further diagnostic. -/
theorem C9_witness :
    checkCallExpression [] "file.ts" (some JestFnType.hook) rewrittenHookCall = none :=
  C9_theorem [] "file.ts" (some JestFnType.hook) rewrittenHookCall rewrittenHookCb
    (by decide) rfl

/-- C10.  When the token immediately after the last parameter is a
comma, the transformer skips it before testing for the enclosing close
paren; a parameter list with a trailing comma therefore still takes the
paren-span-removal edit, and the removed span, from the end of the open
paren to the start of the close paren, contains the trailing comma. -/
theorem C10_theorem (src : List Token) (f nm : String) (fp : Param)
    (rest : List Param) (lp : Param) (body : FnBody) (asy : Bool)
    (fb lb tb tc ta : Token)
    (hlast : (fp :: rest).getLast? = some lp)
    (hfb : getFirstToken src body.range = some fb)
    (hlb : getLastToken src body.range = some lb)
    (htb : getTokenBefore src fp.range = some tb)
    (htc : getTokenAfter src lp.range = some tc)
    (hcomma : tc.value = ",")
    (hta : getTokenAfter src tc.range = some ta)
    (hclose : ta.value = ")") (hopen : tb.value = "(")
    (hord : fp.range.1 ≤ lp.range.2) :
    ∃ b1 b2 : RuleFix,
      fixFn src f ⟨fp :: rest, body, asy⟩ nm =
        Except.ok [Fixer.removeRange (tb.range.2, ta.range.1), b1, b2] ∧
      tb.range.2 ≤ tc.range.1 ∧ tc.range.2 ≤ ta.range.1 := by
  have htaLP : tokenAfterLastParam src (fp :: rest) = some ta := by
    unfold tokenAfterLastParam
    rw [hlast]
    dsimp only
    rw [htc]
    dsimp only
    rw [if_pos hcomma, hta]
  have h1 := getTokenBefore_end_le src fp.range tb htb
  have h2 := getTokenAfter_start_ge src lp.range tc htc
  have h3 := getTokenAfter_start_ge src tc.range ta hta
  have hineq1 : tb.range.2 ≤ tc.range.1 := by omega
  cases body with
  | block r =>
    refine ⟨Fixer.insertTextAfter fb.range ("return new Promise(" ++ nm ++ " => \x7b"),
            Fixer.insertTextAfter lb.range ")\x7d", ?_, hineq1, h3⟩
    rw [fixFn_block src f nm fp rest r asy fb lb tb ta
      (by simpa using hfb) (by simpa using hlb) htb htaLP]
    rw [if_pos (by simp [hopen, hclose])]
  | expr r =>
    refine ⟨Fixer.insertTextBefore fb.range ("new Promise(" ++ nm ++ " => "),
            Fixer.insertTextAfter lb.range ")", ?_, hineq1, h3⟩
    rw [fixFn_expr src f nm fp rest r asy fb lb tb ta
      (by simpa using hfb) (by simpa using hlb) htb htaLP]
    rw [if_pos (by simp [hopen, hclose])]

/-- C10, witness: the trailing-comma scenario, where the removed span
15-20 contains the comma token at 19-20. -/
theorem C10_witness :
    ∃ b1 b2 : RuleFix,
      fixFn trailingCommaTokens "file.ts" trailingCommaCb "done" =
        Except.ok [Fixer.removeRange (15, 20), b1, b2] ∧
      15 ≤ 19 ∧ 20 ≤ 20 :=
  C10_theorem trailingCommaTokens "file.ts" "done" (Param.ident "done" (15, 19))
    [] (Param.ident "done" (15, 19)) (FnBody.block (22, 33)) false
    ⟨"\x7b", (22, 23)⟩ ⟨"\x7d", (32, 33)⟩ ⟨"(", (14, 15)⟩ ⟨",", (19, 20)⟩
    ⟨")", (20, 21)⟩ (by decide) (by decide) (by decide) (by decide) (by decide)
    rfl (by decide) rfl rfl (by decide)
